import Mathlib

/-!
Verification of DynamicEC2Scaler (src/lambda/index.py) against its
natural-language specification.  The Python source is shallowly embedded:
pure functions become Lean functions, the instance-lifecycle controller
becomes a function producing an explicit effect trace, provider calls
(EC2, Pricing, Cost Explorer) become oracle parameters, Python floats are
modelled as rationals, and datetimes as integer epoch seconds (instants
are a pair of an epoch day and a second-of-day; Python weekday with
Monday = 0 is (day + 3) mod 7 since epoch day 0, 1970-01-01, was a
Thursday).
-/

namespace DynScaler

/-- Result of parsing: Except with a message, mirroring raised ValueError. -/
abbrev Res (α : Type) := Except String α

/-! ## Character-level string primitives

Structural-recursion counterparts of the Python string operations the
source uses (strip, upper, lower, split, startswith, endswith, int),
working on the character list of a string so that every definition
evaluates inside the kernel. -/

/-- Drop leading whitespace. -/
def trimLeftL (l : List Char) : List Char := l.dropWhile Char.isWhitespace

/-- Python strip(): drop leading and trailing whitespace. -/
def trimL (l : List Char) : List Char :=
  (trimLeftL (trimLeftL l.reverse).reverse)

/-- Python upper() on ASCII. -/
def upperL (l : List Char) : List Char := l.map Char.toUpper

/-- Python lower() on ASCII. -/
def lowerL (l : List Char) : List Char := l.map Char.toLower

/-- Python split(sep) for a one-character separator: the list of
segments, empty segments included. -/
def splitCharL (sep : Char) : List Char → List (List Char)
  | [] => [[]]
  | c :: cs =>
    match splitCharL sep cs with
    | [] => if c = sep then [[], []] else [[c]]
    | cur :: rest => if c = sep then [] :: cur :: rest else (c :: cur) :: rest

/-- Python split() with no argument: whitespace-delimited tokens, empty
pieces dropped. -/
def wsTokensL (l : List Char) : List (List Char) :=
  (splitCharL ' ' (l.map (fun c => if c.isWhitespace then ' ' else c))).filter
    (fun t => t ≠ [])

/-- Python startswith for character lists. -/
def startsWithL : List Char → List Char → Bool
  | [], _ => true
  | _ :: _, [] => false
  | a :: as, b :: bs => a == b && startsWithL as bs

/-- Python endswith for character lists. -/
def endsWithL (pat l : List Char) : Bool :=
  startsWithL pat.reverse l.reverse

/-- Digits of a decimal numeral to a Nat; none when empty or when a
non-digit appears. -/
def digitsToNatGo : List Char → Nat → Option Nat
  | [], acc => some acc
  | c :: cs, acc =>
    if c.isDigit then digitsToNatGo cs (acc * 10 + (c.toNat - 48)) else none

/-- All-digit numeral to Nat. -/
def digitsToNat (l : List Char) : Option Nat :=
  if l = [] then none else digitsToNatGo l 0

/-- Python int() on an already-stripped string: optional sign then
digits. -/
def toIntL : List Char → Option Int
  | '-' :: rest => (digitsToNat rest).map (fun n => -(n : Int))
  | '+' :: rest => (digitsToNat rest).map (fun n => (n : Int))
  | l => (digitsToNat l).map (fun n => (n : Int))

/-- Split at the first occurrence of the separator character, mirroring
Python split(sep, 1); the caller guards that the separator occurs. -/
def splitFirstL (sep : Char) (l : List Char) : List Char × List Char :=
  match splitCharL sep l with
  | [] => (l, [])
  | [a] => (a, [])
  | a :: rest => (a, List.intercalate [sep] rest)

/-- Lexicographic order on character lists by code point, the order
Python string comparison uses. -/
def charListLt : List Char → List Char → Bool
  | _, [] => false
  | [], _ :: _ => true
  | a :: as, b :: bs => a < b || (a == b && charListLt as bs)

/-- CRON_WEEKDAY_MAP from index.py lines 57-65: three-letter day names to
Python weekday numbers (Monday = 0). -/
def cronWeekdayMap (s : String) : Option Int :=
  if s = "MON" then some 0
  else if s = "TUE" then some 1
  else if s = "WED" then some 2
  else if s = "THU" then some 3
  else if s = "FRI" then some 4
  else if s = "SAT" then some 5
  else if s = "SUN" then some 6
  else none

/-- cron_value_to_weekday (index.py 251-265): name lookup first, then a
numeric token where 0 and 7 both mean Sunday (6) and 1..6 map to 0..5.
int(token) in Python strips surrounding whitespace, modelled by trim. -/
def cronValueToWeekday (token : List Char) : Res Int :=
  let upperToken := upperL (trimL token)
  if upperToken = [] then .error "Empty day-of-week token in cron expression"
  else
    match cronWeekdayMap (String.mk upperToken) with
    | some w => .ok w
    | none =>
      match toIntL (trimL token) with
      | none => .error "Unsupported day-of-week token"
      | some numeric =>
        if numeric = 0 ∨ numeric = 7 then .ok 6
        else if 1 ≤ numeric ∧ numeric ≤ 6 then .ok (numeric - 1)
        else .error "Day-of-week value out of range"

/-- One segment of the day-of-week field (index.py 272-287): a range
start-end (wrapping when start > end) or a single value; empty segments are
skipped by the caller. Membership set represented as a list of weekdays. -/
def dowSegmentValues (segment : List Char) : Res (List Int) :=
  if segment.contains '-' then
    let p := splitFirstL '-' segment
    match cronValueToWeekday p.1 with
    | .error e => .error e
    | .ok start =>
      match cronValueToWeekday p.2 with
      | .error e => .error e
      | .ok stop =>
        if start ≤ stop then
          .ok ((List.range (stop + 1 - start).toNat).map (fun i => start + i))
        else
          .ok (((List.range (7 - start).toNat).map (fun i => start + i)) ++
               ((List.range (stop + 1).toNat).map (fun i => (i : Int))))
  else
    match cronValueToWeekday segment with
    | .error e => .error e
    | .ok w => .ok [w]

/-- Fold the comma-segments of the day-of-week field into an accumulated
set (list) of allowed weekdays, skipping empty segments. -/
def dowCollect : List (List Char) → List Int → Res (List Int)
  | [], acc => .ok acc
  | seg :: rest, acc =>
    let segment := trimL seg
    if segment = [] then dowCollect rest acc
    else
      match dowSegmentValues segment with
      | .error e => .error e
      | .ok vs => dowCollect rest (acc ++ (vs.filter (fun v => ¬ acc.contains v)).dedup)

/-- parse_day_of_week_field (index.py 267-288): "*" or "?" mean
unrestricted (none); otherwise a comma-separated list of values or ranges
accumulated into a set, which may be empty when all segments are empty. -/
def parseDayOfWeekField (field : Option String) : Res (Option (List Int)) :=
  let normalized := upperL (trimL ((field.getD "*")).data)
  if normalized = ['*'] ∨ normalized = ['?'] then .ok none
  else
    match dowCollect (splitCharL ',' normalized) [] with
    | .error e => .error e
    | .ok allowed => .ok (some allowed)

/-- parse_single_int_field (index.py 290-306): wildcard tokens are
rejected, the value must be an integer in the inclusive range. -/
def parseSingleIntField (value : Option String) (minimum maximum : Int) : Res Int :=
  let cleaned := trimL (value.getD "").data
  if cleaned = ['*'] ∨ cleaned = ['?'] then
    .error "field must be a fixed numeric value in cron expression"
  else
    match toIntL cleaned with
    | none => .error "field must be an integer in cron expression"
    | some numeric =>
      if numeric < minimum ∨ numeric > maximum then
        .error "field value is out of the allowed range"
      else .ok numeric

/-- Parsed restricted cron schedule: fixed minute and hour plus an optional
set of allowed weekdays (none means unrestricted). -/
structure CronSpec where
  minute : Int
  hour : Int
  allowedDays : Option (List Int)
deriving DecidableEq, Repr

/-- The per-field validation of parse_cron_expression (index.py 317-336),
taken after the expression was split into exactly six fields. Day-of-month
accepts "*" or "?", month and year accept only "*". -/
def parseCronParts (minuteField hourField dayOfMonthField monthField
    dayOfWeekField yearField : String) : Res CronSpec :=
  match parseSingleIntField (some minuteField) 0 59 with
  | .error e => .error e
  | .ok minute =>
    match parseSingleIntField (some hourField) 0 23 with
    | .error e => .error e
    | .ok hour =>
      if ¬ (dayOfMonthField = "*" ∨ dayOfMonthField = "?") then
        .error "Day-of-month field must be * or ? for supported cron expressions"
      else if ¬ (monthField = "*") then
        .error "Month field must be * for supported cron expressions"
      else if ¬ (yearField = "*") then
        .error "Year field must be * for supported cron expressions"
      else
        match parseDayOfWeekField (some dayOfWeekField) with
        | .error e => .error e
        | .ok allowedDays => .ok (CronSpec.mk minute hour allowedDays)

/-- parse_cron_expression (index.py 308-336): strip, unwrap an optional
cron(...) shell, require exactly six whitespace-separated fields and
validate them with parseCronParts. -/
def parseCronExpression (cronExpression : String) : Res CronSpec :=
  if cronExpression = "" then .error "Cron expression is empty"
  else
    let expression := trimL cronExpression.data
    let expression :=
      if startsWithL "cron(".data (lowerL expression) ∧ endsWithL ")".data expression then
        trimL (expression.drop 5).dropLast
      else expression
    match wsTokensL expression with
    | [mf, hf, domf, monf, dowf, yf] =>
      parseCronParts (String.mk mf) (String.mk hf) (String.mk domf)
        (String.mk monf) (String.mk dowf) (String.mk yf)
    | _ => .error "Cron expression must have 6 fields"

/-- An instant: an epoch day and a second of that day. Python datetime
comparison corresponds to comparing toSecs when 0 ≤ sec < 86400. -/
structure Instant where
  day : Int
  sec : Int
deriving DecidableEq, Repr

/-- Total seconds of an instant. -/
def Instant.toSecs (t : Instant) : Int :=
  t.day * 86400 + t.sec

/-- Python weekday (Monday = 0) of an epoch day: day 0 was a Thursday. -/
def weekdayOf (day : Int) : Int :=
  (day + 3) % 7

/-- The candidate built on each loop iteration of get_next_scheduled_time
(index.py 342-345): the reference day plus the offset, at hour:minute:00. -/
def cronCandidate (spec : CronSpec) (ref : Instant) (offset : Nat) : Instant :=
  Instant.mk (ref.day + offset) (spec.hour * 3600 + spec.minute * 60)

/-- The acceptance test of the loop body (index.py 347-351): the candidate
is strictly after the reference and, when a weekday set is defined, its
weekday is allowed. -/
def cronAccepts (spec : CronSpec) (ref : Instant) (offset : Nat) : Bool :=
  let candidate := cronCandidate spec ref offset
  if candidate.toSecs ≤ ref.toSecs then false
  else
    match spec.allowedDays with
    | none => true
    | some allowed => allowed.contains (weekdayOf candidate.day)

/-- The day-offset scan of get_next_scheduled_time: try offsets from
the current one, decreasing fuel, returning the first accepted candidate. -/
def cronScan (spec : CronSpec) (ref : Instant) (offset : Nat) : Nat → Option Instant
  | 0 => none
  | fuel + 1 =>
    if cronAccepts spec ref offset then some (cronCandidate spec ref offset)
    else cronScan spec ref (offset + 1) fuel

/-- get_next_scheduled_time (index.py 338-355): parse the expression, scan
day offsets 0..13, fail when no candidate is accepted within 14 days. -/
def getNextScheduledTime (cronExpression : String) (referenceTime : Instant) :
    Res Instant :=
  match parseCronExpression cronExpression with
  | .error e => .error e
  | .ok spec =>
    match cronScan spec referenceTime 0 14 with
    | some t => .ok t
    | none => .error "Unable to find the next scheduled time within 14 days"

/-! ## Pricing resolution engine (index.py 371-645) -/

/-- One TERM_MATCH filter sent to the pricing catalog (the constant Type
key of the Python dict is omitted; Field and Value carry the content). -/
structure PFilter where
  field : String
  value : String
deriving DecidableEq, Repr

/-- A pricing profile: the three attribute values of the pricing_filters
dict. The empty string models a falsy (absent) value. -/
structure PricingProfile where
  operatingSystem : String
  preInstalledSw : String
  licenseModel : String
deriving DecidableEq, Repr

/-- build_pricing_cache_key (index.py 484-490): the cache key is the
instance type together with the three attribute values of the requested
profile. -/
def buildPricingCacheKey (instanceType : String) (pf : PricingProfile) :
    String × String × String × String :=
  (instanceType, pf.operatingSystem, pf.preInstalledSw, pf.licenseModel)

/-- The shared per-process price cache, an association list keyed by
buildPricingCacheKey. -/
abbrev PriceCache := List ((String × String × String × String) × Rat)

/-- PRICE_CACHE.get under the lock (index.py 511-512). -/
def cacheLookup (cache : PriceCache) (key : String × String × String × String) :
    Option Rat :=
  (cache.find? (fun e => e.1 = key)).map (fun e => e.2)

/-- build_filters (index.py 526-546): instance type and location first,
then each non-empty profile attribute, then tenancy and capacity status. -/
def buildBaseFilters (instanceType location : String) (pf : PricingProfile) :
    List PFilter :=
  [PFilter.mk "instanceType" instanceType, PFilter.mk "location" location]
  ++ (if pf.operatingSystem ≠ "" then [PFilter.mk "operatingSystem" pf.operatingSystem] else [])
  ++ (if pf.preInstalledSw ≠ "" then [PFilter.mk "preInstalledSw" pf.preInstalledSw] else [])
  ++ (if pf.licenseModel ≠ "" then [PFilter.mk "licenseModel" pf.licenseModel] else [])
  ++ [PFilter.mk "tenancy" "Shared", PFilter.mk "capacitystatus" "Used"]

/-- remove_filter (index.py 548-553). -/
def removeFilter (filters : List PFilter) (fieldName : String) : List PFilter :=
  filters.filter (fun f => f.field ≠ fieldName)

/-- update_filter (index.py 555-562). -/
def updateFilter (filters : List PFilter) (fieldName value : String) : List PFilter :=
  filters.map (fun f => if f.field = fieldName then PFilter.mk f.field value else f)

/-- Ordered insertion into a list sorted by the lexicographic order on
(Field, Value) pairs, used to mirror the Python sorted() call. -/
def insortPair (x : String × String) : List (String × String) → List (String × String)
  | [] => [x]
  | y :: ys =>
    if charListLt x.1.data y.1.data ∨ (x.1 = y.1 ∧ ¬ (charListLt y.2.data x.2.data)) then
      x :: y :: ys
    else y :: insortPair x ys

/-- serialize_filters (index.py 564-570): the sorted list of
(Field, Value) pairs, used as a dedup signature. -/
def serializeFilters (filters : List PFilter) : List (String × String) :=
  (filters.map (fun f => (f.field, f.value))).foldr insortPair []

/-- The ordered variant list built in index.py 581-602: base filters,
then the License-Included relaxation, the license removal, the
preinstalled-software removal, and the removal of both, each guarded by
the profile values being truthy. -/
def filterVariants (base : List PFilter) (pf : PricingProfile) :
    List (List PFilter) :=
  [base]
  ++ (if pf.licenseModel ≠ "" then
        (if pf.licenseModel = "License Included" then
           [updateFilter base "licenseModel" "No License required"]
         else [])
        ++ [removeFilter base "licenseModel"]
      else [])
  ++ (if pf.preInstalledSw ≠ "" then [removeFilter base "preInstalledSw"] else [])
  ++ (if pf.licenseModel ≠ "" ∧ pf.preInstalledSw ≠ "" then
        [removeFilter (removeFilter base "licenseModel") "preInstalledSw"]
      else [])

/-- The dedup pass of index.py 604-610: keep the first variant for each
serialized signature. -/
def dedupVariants : List (List PFilter) → List (List (String × String)) → List (List PFilter)
  | [], _ => []
  | v :: rest, seen =>
    let sig := serializeFilters v
    if seen.contains sig then dedupVariants rest seen
    else v :: dedupVariants rest (sig :: seen)

/-- The variant loop of index.py 633-645. The catalog oracle models
try_filters: it maps a filter list to the extracted on-demand rate, none
when the catalog returns no product or no price dimension. The first
variant with a rate stores it in the cache under the given key and
returns it; exhaustion raises. -/
def priceLoop (catalog : List PFilter → Option Rat) (cache : PriceCache)
    (key : String × String × String × String) :
    List (List PFilter) → Res Rat × PriceCache
  | [] => (.error "No pricing information found", cache)
  | v :: rest =>
    match catalog v with
    | some price => (.ok price, (key, price) :: cache)
    | none => priceLoop catalog cache key rest

/-- get_hourly_rate (index.py 509-645). regionName and location are the
results of get_region and get_location, whose defaulted sentinel values
are the strings unknown and Unknown; the catalog oracle models the
pricing client. Returns the rate (or error) and the updated cache. -/
def getHourlyRate (catalog : List PFilter → Option Rat)
    (regionName location : String) (cache : PriceCache)
    (instanceType : String) (pf : PricingProfile) : Res Rat × PriceCache :=
  let cacheKey := buildPricingCacheKey instanceType pf
  match cacheLookup cache cacheKey with
  | some cachedPrice => (.ok cachedPrice, cache)
  | none =>
    if regionName = "unknown" ∨ location = "Unknown" then (.ok 0, cache)
    else
      let base := buildBaseFilters instanceType location pf
      priceLoop catalog cache cacheKey (dedupVariants (filterVariants base pf) [])

/-! ## Savings-plan discount estimator (index.py 647-744) -/

/-- get_manual_discount_factor (index.py 653-667). The input is the float
parse of the SAVINGS_PLAN_DISCOUNT_PERCENT environment string (none when
float() raises; the variable defaults to the string 0). -/
def getManualDiscountFactor (parsedPercent : Option Rat) : Res Rat :=
  match parsedPercent with
  | none => .error "SAVINGS_PLAN_DISCOUNT_PERCENT must be a number between 0 and 100"
  | some discountPercent =>
    if discountPercent < 0 ∨ discountPercent > 100 then
      .error "SAVINGS_PLAN_DISCOUNT_PERCENT must be between 0 and 100"
    else .ok (1 - discountPercent / 100)

/-- parse_float (index.py 647-651) applied to an already-parsed optional
value: unparsable input defaults to 0. -/
def parseFloatD (value : Option Rat) : Rat := value.getD 0

/-- get_coverage_discount_factor (index.py 669-720). lookbackParsed is
the int parse of the lookback environment string; coverages is the
concatenation of all Cost Explorer pages, each entry the float parses of
SavingsPlansSavings and TotalCost (none when absent or unparsable, which
parse_float defaults to 0). -/
def getCoverageDiscountFactor (lookbackParsed : Option Int)
    (coverages : List (Option Rat × Option Rat)) : Res Rat :=
  match lookbackParsed with
  | none => .error "SAVINGS_PLAN_COVERAGE_LOOKBACK_DAYS must be an integer between 1 and 90"
  | some lookbackDays =>
    if lookbackDays < 1 ∨ lookbackDays > 90 then
      .error "SAVINGS_PLAN_COVERAGE_LOOKBACK_DAYS must be between 1 and 90"
    else
      let totalSavings := (coverages.map (fun c => parseFloatD c.1)).sum
      let totalCost := (coverages.map (fun c => parseFloatD c.2)).sum
      let denominator := totalCost + totalSavings
      if denominator ≤ 0 then
        .error "Savings Plan coverage data is empty for the selected window"
      else
        let discountPercent := (max (min (totalSavings / denominator) (9999 / 10000)) 0) * 100
        .ok (1 - discountPercent / 100)

/-- get_savings_plan_factor (index.py 722-744), one computation of the
factor paired with its source label (the process-lifetime memoization
under SAVINGS_PLAN_LOCK stores exactly this value on first use).
Coverage mode falls back to manual mode on any coverage failure; a manual
failure propagates. -/
def getSavingsPlanFactor (mode : String) (lookbackParsed : Option Int)
    (coverages : List (Option Rat × Option Rat)) (manualParsedPercent : Option Rat) :
    Res (Rat × String) :=
  if String.mk (lowerL (trimL mode.data)) = "coverage" then
    match getCoverageDiscountFactor lookbackParsed coverages with
    | .ok factor => .ok (factor, "coverage")
    | .error _ =>
      match getManualDiscountFactor manualParsedPercent with
      | .ok factor => .ok (factor, "manual")
      | .error e => .error e
  else
    match getManualDiscountFactor manualParsedPercent with
    | .ok factor => .ok (factor, "manual")
    | .error e => .error e

/-! ## Retry wrapper (index.py 125-141) -/

/-- Result of the retry wrapper: a returned value, a re-raised last
error, or the RuntimeError branch reached only when no attempt ran. -/
inductive RetryOutcome (ε α : Type) where
  | ok (a : α)
  | raised (e : ε)
  | noErrorCaptured
deriving DecidableEq, Repr

/-- Observable behaviour of one retry call: its outcome, the sleep
durations performed in order, and how many times the wrapped call ran. -/
structure RetryTrace (ε α : Type) where
  result : RetryOutcome ε α
  sleeps : List Rat
  calls : Nat
deriving DecidableEq, Repr

/-- The attempt loop of retry (index.py 127-137): the oracle gives each
1-based attempt result; a success returns at once; a failure records the
error, sleeps backoff times the attempt number, and continues. fuel is
the number of attempts still allowed. -/
def retryGo (oracle : Nat → Except ε α) (backoff : Rat) :
    Option ε → Nat → Nat → RetryTrace ε α
  | lastError, _, 0 =>
    RetryTrace.mk
      (match lastError with
       | some e => .raised e
       | none => .noErrorCaptured)
      [] 0
  | _, attempt, fuel + 1 =>
    match oracle attempt with
    | .ok a => RetryTrace.mk (.ok a) [] 1
    | .error e =>
      let rest := retryGo oracle backoff (some e) (attempt + 1) fuel
      RetryTrace.mk rest.result (backoff * (attempt : Rat) :: rest.sleeps) (rest.calls + 1)

/-- retry (index.py 125-141): run the attempt loop for attempts
1..maxRetries; after exhaustion the last captured error is re-raised. -/
def retryModel (oracle : Nat → Except ε α) (maxRetries : Nat) (backoff : Rat) :
    RetryTrace ε α :=
  retryGo oracle backoff none 1 maxRetries

/-! ## Tags and timestamps (index.py 24-26, 148-154, 235-249) -/

/-- Tag names (index.py 24-26). -/
def lastScaleDownTimestampTag : String := "DynamicScalingLastScaleDownTimestamp"

/-- Tag holding the hourly savings recorded at scale-down. -/
def lastScaleDownHourlyTag : String := "DynamicScalingLastScaleDownHourlySavings"

/-- Tag holding the last scale-up timestamp. -/
def lastScaleUpTimestampTag : String := "DynamicScalingLastScaleUpTimestamp"

/-- Tag key preserving the pre-downsize instance type. -/
def preferredTypeTag : String := "PreferredInstanceType"

/-- A tag map, as an association list with unique keys (built from the
Python dict of the instance description). -/
abbrev Tags := List (String × String)

/-- Exact-key dict lookup tags.get(key) as used by process_instance and
build_actual_savings_snapshot. -/
def tagsGet (tags : Tags) (key : String) : Option String :=
  (tags.find? (fun p => p.1 = key)).map (fun p => p.2)

/-- Dict assignment tags[key] = value on the local copy. -/
def tagsSet (tags : Tags) (key value : String) : Tags :=
  if (tags.find? (fun p => p.1 = key)).isSome then
    tags.map (fun p => if p.1 = key then (key, value) else p)
  else tags ++ [(key, value)]

/-- Python falsiness of an optional tag string: absent or empty. -/
def strFalsy (v : Option String) : Bool :=
  match v with
  | none => true
  | some s => s = ""

/-- parse_timestamp (index.py 235-249): falsy or blank input gives none;
otherwise the stripped string is parsed. parseIso models
datetime.fromisoformat together with the Z-suffix rewrite and the UTC
normalization, yielding naive-UTC epoch seconds. -/
def parseTimestampModel (parseIso : String → Option Int) (value : Option String) :
    Option Int :=
  match value with
  | none => none
  | some s =>
    if s = "" then none
    else if trimL s.data = [] then none
    else parseIso (String.mk (trimL s.data))

/-- Round to four decimal places, modelling round(x, 4) (Python rounds
the nearest float with ties to even; the tie behaviour is immaterial to
every claim below). -/
def round4 (x : Rat) : Rat := ((⌊x * 10000 + 1 / 2⌋ : Int) : Rat) / 10000

/-! ## Actual-savings snapshot (index.py 831-892) -/

/-- The actual-savings record. Timestamps are kept as instants in epoch
seconds; format_utc string rendering is applied only when the record is
serialized. -/
structure ActualRecord where
  instanceId : String
  offHoursType : String
  restoredType : String
  scaleDownTimestamp : Int
  scaleUpTimestamp : Int
  downtimeHours : Rat
  hourlySavings : Rat
  actualSavings : Rat
deriving DecidableEq, Repr

/-- build_actual_savings_snapshot (index.py 831-892). parseFl models
Python float() on the hourly tag value; now is utcnow truncated to whole
seconds. Returns the record with the scale-up instant, or none on any of
the soft-failure guards. -/
def buildActualSavingsSnapshot (parseIso : String → Option Int)
    (parseFl : String → Option Rat) (instanceId : String) (tags : Tags)
    (desiredType currentType : String) (now : Int) : Option (ActualRecord × Int) :=
  let lastDownValue := tagsGet tags lastScaleDownTimestampTag
  let hourlyValue := tagsGet tags lastScaleDownHourlyTag
  if strFalsy lastDownValue ∨ strFalsy hourlyValue then none
  else
    match parseTimestampModel parseIso lastDownValue with
    | none => none
    | some scaleDownTime =>
      let lastScaleUpTime :=
        parseTimestampModel parseIso (tagsGet tags lastScaleUpTimestampTag)
      if (match lastScaleUpTime with
          | some upTime => decide (scaleDownTime ≤ upTime)
          | none => Bool.false) then none
      else
        match hourlyValue with
        | none => none
        | some hourlyStr =>
          match parseFl hourlyStr with
          | none => none
          | some hourlySavings =>
            let scaleUpTime := now
            let downtimeHours := max (((scaleUpTime - scaleDownTime : Int) : Rat) / 3600) 0
            let actualSavingsValue := round4 (hourlySavings * downtimeHours)
            some
              (ActualRecord.mk instanceId currentType desiredType scaleDownTime
                scaleUpTime (round4 downtimeHours) (round4 hourlySavings)
                actualSavingsValue,
               scaleUpTime)

/-! ## Instance lifecycle controller (index.py 1110-1262) -/

/-- The savings record built during scale-down (index.py 1155-1165). -/
structure SavingsRecord where
  instanceId : String
  previousType : String
  downsizedType : String
  pricingOperatingSystem : String
  pricingPreinstalledSoftware : String
  pricingLicenseModel : String
  pricingProfileSource : String
  hourlySavings : Rat
  scaleDownTimestamp : String
deriving DecidableEq, Repr

/-- Provider calls issued by process_instance, in order. -/
inductive Effect where
  | createTag (instanceId key value : String)
  | stopInstances (instanceId : String)
  | waitStopped (instanceId : String)
  | modifyInstanceType (instanceId newType : String)
  | waitForType (instanceId newType : String)
  | startInstances (instanceId : String)
  | waitRunning (instanceId : String)
deriving DecidableEq, Repr

/-- Outcome of the best-effort savings computation (the try block of
index.py 1145-1193): calcFails when the profile/rate/factor chain raises
before the record is assigned; calcOk carries the derived profile with
its source label and the discounted hourly savings, and tagWriteSucceeds
tells whether the scale-down metadata tag write succeeded (a failed write
still leaves the already-assigned record in place). -/
inductive SavingsOutcome where
  | calcFails
  | calcOk (profile : PricingProfile) (profileSource : String)
      (hourlySavings : Rat) (tagWriteSucceeds : Bool)

/-- One instance as handed to process_instance (index.py 1344-1352). -/
structure InstanceData where
  instanceId : String
  currentType : String
  state : String
  tags : Tags

/-- What one process_instance call returns, plus its provider-call
trace. -/
structure ProcResult where
  processed : Bool
  savings : Option SavingsRecord
  actual : Option ActualRecord
  effects : List Effect

/-- The resolution downsize_type or get_downsize_type() at index.py
1125: a falsy explicit override falls back to the process default. -/
def resolveDownsizeType (downsizeType : Option String) (defaultType : String) :
    String :=
  match downsizeType with
  | none => defaultType
  | some s => if s = "" then defaultType else s

/-- The shared stop/modify/start trace (index.py 1213-1238). -/
def stopModifyStartEffects (instanceId state desiredType : String) : List Effect :=
  (if state ≠ "stopped" then [Effect.stopInstances instanceId, Effect.waitStopped instanceId] else [])
  ++ [Effect.modifyInstanceType instanceId desiredType,
      Effect.waitForType instanceId desiredType,
      Effect.startInstances instanceId,
      Effect.waitRunning instanceId]

/-- process_instance (index.py 1110-1262), modelled for runs in which
the stop/modify/start provider calls succeed. fmtRate and fmtUtc model
the .4f and format_utc string renderings of tag values; savingsOutcome
is the oracle for the best-effort savings block; now is the utcnow read
inside build_actual_savings_snapshot. -/
def processInstance (parseIso : String → Option Int) (parseFl : String → Option Rat)
    (fmtRate : Rat → String) (fmtUtc : Int → String)
    (savingsOutcome : SavingsOutcome) (now : Int) (data : InstanceData)
    (action : String) (runStartTimestamp : String) (downsizeType : Option String)
    (defaultDownsizeType : String) : ProcResult :=
  if action = "scaledown" then
    let desiredType := resolveDownsizeType downsizeType defaultDownsizeType
    if data.currentType = desiredType then ProcResult.mk false none none []
    else
      let preferredType := String.mk (trimL ((tagsGet data.tags preferredTypeTag).getD "").data)
      let preferredEffects :=
        if preferredType ≠ "" then ([] : List Effect)
        else [Effect.createTag data.instanceId preferredTypeTag data.currentType]
      let savingsPair :=
        match savingsOutcome with
        | .calcFails => (none, ([] : List Effect))
        | .calcOk profile profileSource hourlySavings tagWriteSucceeds =>
          (some (SavingsRecord.mk data.instanceId data.currentType desiredType
             profile.operatingSystem profile.preInstalledSw profile.licenseModel
             profileSource (round4 hourlySavings) runStartTimestamp),
           if tagWriteSucceeds then
             [Effect.createTag data.instanceId lastScaleDownTimestampTag runStartTimestamp,
              Effect.createTag data.instanceId lastScaleDownHourlyTag (fmtRate hourlySavings)]
           else [])
      ProcResult.mk true savingsPair.1 none
        (preferredEffects ++ savingsPair.2
         ++ stopModifyStartEffects data.instanceId data.state desiredType)
  else
    let desiredTypeValue := String.mk (trimL ((tagsGet data.tags preferredTypeTag).getD "").data)
    if desiredTypeValue = "" then ProcResult.mk false none none []
    else if data.currentType = desiredTypeValue then ProcResult.mk false none none []
    else
      let baseEffects := stopModifyStartEffects data.instanceId data.state desiredTypeValue
      match buildActualSavingsSnapshot parseIso parseFl data.instanceId data.tags
          desiredTypeValue data.currentType now with
      | some (record, snapshotTime) =>
        ProcResult.mk true none (some record)
          (baseEffects ++ [Effect.createTag data.instanceId lastScaleUpTimestampTag (fmtUtc snapshotTime)])
      | none => ProcResult.mk true none none baseEffects

/-! ## Batch orchestrator and handler (index.py 1264-1420) -/

/-- What one submitted task yields when its future is collected
(index.py 1391-1399): a returned triple, or a raised exception. -/
inductive TaskOutcome where
  | ok (processed : Bool) (savings : Option SavingsRecord) (actual : Option ActualRecord)
  | err
deriving DecidableEq

/-- The accumulators of the batch loop (index.py 1373-1375). -/
structure BatchAcc where
  processedCount : Nat
  savingsRecords : List SavingsRecord
  actualRecords : List ActualRecord
deriving DecidableEq

/-- Collection of one completed task result (index.py 1401-1406); a
failed task collects nothing. -/
def collectOutcome (acc : BatchAcc) : TaskOutcome → BatchAcc
  | .ok processed savings actual =>
    BatchAcc.mk
      (if processed then acc.processedCount + 1 else acc.processedCount)
      (match savings with
       | some r => acc.savingsRecords ++ [r]
       | none => acc.savingsRecords)
      (match actual with
       | some r => acc.actualRecords ++ [r]
       | none => acc.actualRecords)
  | .err => acc

/-- Collecting the futures of one batch in completion order (index.py
1391-1406): a failure is logged and skipped, or re-raised under the
fail-fast policy. -/
def runBatch (failFast : Bool) (acc : BatchAcc) : List TaskOutcome → Except Unit BatchAcc
  | [] => .ok acc
  | .err :: rest => if failFast then .error () else runBatch failFast acc rest
  | .ok p s a :: rest => runBatch failFast (collectOutcome acc (.ok p s a)) rest

/-- The sequential batch loop (index.py 1377-1406): each batch finishes
before the next starts; a re-raised failure skips every remaining
batch. -/
def runBatches (failFast : Bool) (acc : BatchAcc) :
    List (List TaskOutcome) → Except Unit BatchAcc
  | [] => .ok acc
  | batch :: rest =>
    match runBatch failFast acc batch with
    | .error e => .error e
    | .ok acc2 => runBatches failFast acc2 rest

/-- The batch phase of lambda_handler (index.py 1377-1413): the Bool in
the success value records that the run summary (record_savings or
record_actual_savings) was written; a propagated failure reaches the
invoker with no summary recorded. -/
def lambdaHandlerBatchPhase (failFast : Bool) (batches : List (List TaskOutcome)) :
    Except Unit (BatchAcc × Bool) :=
  match runBatches failFast (BatchAcc.mk 0 [] []) batches with
  | .error e => .error e
  | .ok acc => .ok (acc, true)

/-- VALID_ACTIONS (index.py 22). -/
def validActions : List String := ["scaleup", "scaledown"]

/-- How the handler entry validation ends. -/
inductive EntryOutcome where
  | invalidAction
  | manualBlocked
  | proceeds
deriving DecidableEq, Repr

/-- The entry validation of lambda_handler (index.py 1264-1273): the
action is checked against VALID_ACTIONS first, then a source equal to
(or defaulting to) manual is rejected; both happen before the first
provider call. -/
def handlerEntry (action source : Option String) : EntryOutcome :=
  let src := source.getD "manual"
  let actionValid :=
    match action with
    | some a => validActions.contains a
    | none => false
  if actionValid then
    if src = "manual" then .manualBlocked else .proceeds
  else .invalidAction

/-- The handler from entry validation through the batch loop. The
instance enumeration, schedule filtering, dedup and batching between the
two phases are summarized by the batches input; enumeratedInstances
records whether that first provider interaction was reached at all. -/
structure HandlerRun where
  result : Except String (BatchAcc × Bool)
  enumeratedInstances : Bool

/-- lambda_handler (index.py 1264-1420) restricted to the claims at
stake: validation, then (only when validation proceeds) the provider
enumeration and the batch phase. -/
def lambdaHandlerModel (action source : Option String) (failFast : Bool)
    (batches : List (List TaskOutcome)) : HandlerRun :=
  match handlerEntry action source with
  | .invalidAction => HandlerRun.mk (.error "Invalid or missing action") false
  | .manualBlocked =>
    HandlerRun.mk (.error "Manual execution is blocked. Use EventBridge scheduled rules.") false
  | .proceeds =>
    match lambdaHandlerBatchPhase failFast batches with
    | .error _ => HandlerRun.mk (.error "unhandled exception") true
    | .ok value => HandlerRun.mk (.ok value) true

/-! ## Theorems -/

/-- The loop acceptance test unfolded: a candidate is accepted exactly
when it is strictly after the reference and, when a weekday set is
defined, its weekday belongs to it. -/
theorem cronAccepts_iff (spec : CronSpec) (ref : Instant) (o : Nat) :
    cronAccepts spec ref o = true ↔
      (ref.toSecs < (cronCandidate spec ref o).toSecs ∧
       ∀ allowed, spec.allowedDays = some allowed →
         weekdayOf (cronCandidate spec ref o).day ∈ allowed) := by
  simp only [cronAccepts]
  split_ifs with h
  · constructor
    · intro hc; exact absurd hc (by simp)
    · rintro ⟨h1, _⟩; exfalso; omega
  · cases hD : spec.allowedDays with
    | none =>
      simp only [hD]
      constructor
      · intro _; exact ⟨by omega, by intro a ha; cases ha⟩
      · intro _; trivial
    | some allowed =>
      simp only [hD]
      constructor
      · intro hm
        refine ⟨by omega, ?_⟩
        intro a ha
        cases ha
        exact List.elem_iff.mp hm
      · rintro ⟨_, h2⟩
        exact List.elem_iff.mpr (h2 allowed rfl)

/-- The day scan returns nothing exactly when no offset within fuel is
accepted. -/
theorem cronScan_none_iff (spec : CronSpec) (ref : Instant) :
    ∀ fuel offset, cronScan spec ref offset fuel = none ↔
      ∀ j, j < fuel → cronAccepts spec ref (offset + j) = false := by
  intro fuel
  induction fuel with
  | zero =>
    intro offset
    simp [cronScan]
  | succ n ih =>
    intro offset
    cases hA : cronAccepts spec ref offset with
    | true =>
      rw [cronScan, if_pos hA]
      constructor
      · intro hc; cases hc
      · intro hall
        have h0 := hall 0 (by omega)
        rw [Nat.add_zero, hA] at h0
        exact absurd h0 (by simp)
    | false =>
      rw [cronScan, if_neg (by simp [hA])]
      rw [ih (offset + 1)]
      constructor
      · intro hall j hj
        match j, hj with
        | 0, _ => rw [Nat.add_zero]; exact hA
        | (k + 1), hj =>
          have hk := hall k (by omega)
          rw [show offset + 1 + k = offset + (k + 1) by omega] at hk
          exact hk
      · intro hall j hj
        have hk := hall (j + 1) (by omega)
        rw [show offset + (j + 1) = offset + 1 + j by omega] at hk
        exact hk

/-- When the day scan returns a candidate it is the one at the first
accepted offset. -/
theorem cronScan_some_spec (spec : CronSpec) (ref : Instant) :
    ∀ fuel offset t, cronScan spec ref offset fuel = some t →
      ∃ j, j < fuel ∧ t = cronCandidate spec ref (offset + j) ∧
        cronAccepts spec ref (offset + j) = true ∧
        ∀ i, i < j → cronAccepts spec ref (offset + i) = false := by
  intro fuel
  induction fuel with
  | zero =>
    intro offset t h
    simp [cronScan] at h
  | succ n ih =>
    intro offset t h
    cases hA : cronAccepts spec ref offset with
    | true =>
      rw [cronScan, if_pos hA] at h
      refine ⟨0, by omega, ?_, ?_, ?_⟩
      · rw [Nat.add_zero]; exact (Option.some_inj.mp h).symm
      · rw [Nat.add_zero]; exact hA
      · intro i hi; exact absurd hi (by omega)
    | false =>
      rw [cronScan, if_neg (by simp [hA])] at h
      obtain ⟨j, hj, ht, hacc, hmin⟩ := ih (offset + 1) t h
      refine ⟨j + 1, by omega, ?_, ?_, ?_⟩
      · rw [show offset + (j + 1) = offset + 1 + j by omega]; exact ht
      · rw [show offset + (j + 1) = offset + 1 + j by omega]; exact hacc
      · intro i hi
        match i, hi with
        | 0, _ => rw [Nat.add_zero]; exact hA
        | (k + 1), hi =>
          rw [show offset + (k + 1) = offset + 1 + k by omega]
          exact hmin k (by omega)

/-- After a successful parse, get_next_scheduled_time is the day scan
over offsets 0..13. -/
theorem getNextScheduledTime_eq (expr : String) (ref : Instant) (spec : CronSpec)
    (h : parseCronExpression expr = .ok spec) :
    getNextScheduledTime expr ref =
      (match cronScan spec ref 0 14 with
       | some t => .ok t
       | none => .error "Unable to find the next scheduled time within 14 days") := by
  unfold getNextScheduledTime
  rw [h]

/-- C3: for every cron expression accepted by the parser and every
reference instant, the next occurrence is built from the first day
offset in 0..13 whose candidate (candidate date at hour:minute:00) is
strictly greater than the reference and on an allowed weekday; the
result is never less than or equal to the reference, and when no offset
within the 14 scanned days qualifies the call fails instead of
returning a value. -/
theorem C3_next_occurrence_strictly_future_and_first
    (expr : String) (ref : Instant) (spec : CronSpec)
    (hparse : parseCronExpression expr = .ok spec) :
    (∀ o : Nat, cronAccepts spec ref o = true ↔
        (ref.toSecs < (cronCandidate spec ref o).toSecs ∧
         ∀ allowed, spec.allowedDays = some allowed →
           weekdayOf (cronCandidate spec ref o).day ∈ allowed)) ∧
    (∀ t, getNextScheduledTime expr ref = .ok t →
        ref.toSecs < t.toSecs ∧
        ∃ o, o < 14 ∧ t = cronCandidate spec ref o ∧
          cronAccepts spec ref o = true ∧
          ∀ i, i < o → cronAccepts spec ref i = false) ∧
    ((∀ o, o < 14 → cronAccepts spec ref o = false) →
        getNextScheduledTime expr ref =
          .error "Unable to find the next scheduled time within 14 days") := by
  refine ⟨fun o => cronAccepts_iff spec ref o, ?_, ?_⟩
  · intro t ht
    rw [getNextScheduledTime_eq expr ref spec hparse] at ht
    cases hscan : cronScan spec ref 0 14 with
    | none => rw [hscan] at ht; cases ht
    | some u =>
      rw [hscan] at ht
      have hut : u = t := Option.some_inj.mp (by exact congrArg (fun r => match r with | .ok v => some v | .error _ => none) ht)
      subst hut
      obtain ⟨j, hj, h1, h2, h3⟩ := cronScan_some_spec spec ref 14 0 u hscan
      rw [Nat.zero_add] at h1 h2
      refine ⟨?_, j, hj, h1, h2, fun i hi => ?_⟩
      · have := (cronAccepts_iff spec ref j).mp h2
        rw [← h1] at this
        exact this.1
      · have := h3 i hi
        rw [Nat.zero_add] at this
        exact this
  · intro hnone
    rw [getNextScheduledTime_eq expr ref spec hparse]
    have hsn : cronScan spec ref 0 14 = none :=
      (cronScan_none_iff spec ref 14 0).mpr
        (fun j hj => by rw [Nat.zero_add]; exact hnone j hj)
    rw [hsn]

/-- Witness for C3: the spec example 0 18 * * MON-FRI * at Monday
2024-01-01T10:00:00 (epoch day 19723), whose next occurrence is the same
day at 18:00, strictly after the reference. -/
theorem C3_witness :
    Instant.toSecs (Instant.mk 19723 36000) < Instant.toSecs (Instant.mk 19723 64800) :=
  ((C3_next_occurrence_strictly_future_and_first "0 18 * * MON-FRI *"
      (Instant.mk 19723 36000) (CronSpec.mk 0 18 (some [0, 1, 2, 3, 4])) rfl).2.1
    (Instant.mk 19723 64800) rfl).1

/-- C9: a non-wildcard day-of-week field with only empty segments (such
as the bare comma) parses to the empty allowed set, distinct from the
unrestricted none produced by the wildcards, and the next-occurrence
computation over such an expression fails for every reference instant
since no candidate day can belong to the empty set. -/
theorem C9_empty_dow_segments_give_empty_set_and_no_occurrence :
    parseDayOfWeekField (some ",") = .ok (some []) ∧
    parseDayOfWeekField (some " , ") = .ok (some []) ∧
    parseDayOfWeekField (some "*") = .ok none ∧
    parseDayOfWeekField (some "?") = .ok none ∧
    parseCronExpression "0 18 * * , *" = .ok (CronSpec.mk 0 18 (some [])) ∧
    ∀ ref : Instant, getNextScheduledTime "0 18 * * , *" ref =
      .error "Unable to find the next scheduled time within 14 days" := by
  refine ⟨rfl, rfl, rfl, rfl, rfl, ?_⟩
  intro ref
  rw [getNextScheduledTime_eq "0 18 * * , *" ref (CronSpec.mk 0 18 (some [])) rfl]
  have hsn : cronScan (CronSpec.mk 0 18 (some [])) ref 0 14 = none := by
    rw [cronScan_none_iff]
    intro j _
    simp only [cronAccepts]
    split_ifs <;> rfl
  rw [hsn]

/-- Witness for C9 at a concrete reference instant. -/
theorem C9_witness :
    getNextScheduledTime "0 18 * * , *" (Instant.mk 0 0) =
      .error "Unable to find the next scheduled time within 14 days" :=
  C9_empty_dow_segments_give_empty_set_and_no_occurrence.2.2.2.2.2 (Instant.mk 0 0)

/-- C6 counterexample: the claim says only the literal asterisk is
accepted in the day-of-month position, but the expression with
day-of-month "?" parses successfully. -/
theorem C6_counterexample_question_mark_day_of_month :
    parseCronExpression "0 18 ? * * *" = .ok (CronSpec.mk 0 18 none) ∧
    ("?" : String) ≠ "*" :=
  ⟨rfl, by decide⟩

/-- C6 (amended): parsing fails for every 6-field expression whose
day-of-month field is other than "*" or "?", and for every month or
year field other than "*"; the day-of-month position also accepts the
question mark. -/
theorem C6_amended_wildcard_only_calendar_fields
    (mf hf domf monf dowf yf : String) :
    (¬ (domf = "*" ∨ domf = "?") →
      ∃ e, parseCronParts mf hf domf monf dowf yf = .error e) ∧
    (monf ≠ "*" → ∃ e, parseCronParts mf hf domf monf dowf yf = .error e) ∧
    (yf ≠ "*" → ∃ e, parseCronParts mf hf domf monf dowf yf = .error e) ∧
    parseCronExpression "0 18 15 * * *" =
      .error "Day-of-month field must be * or ? for supported cron expressions" ∧
    parseCronExpression "0 18 * 6 * *" =
      .error "Month field must be * for supported cron expressions" ∧
    parseCronExpression "0 18 * * * 2024" =
      .error "Year field must be * for supported cron expressions" := by
  refine ⟨?_, ?_, ?_, rfl, rfl, rfl⟩
  · intro h
    unfold parseCronParts
    cases hm : parseSingleIntField (some mf) 0 59 with
    | error e => exact ⟨e, rfl⟩
    | ok m =>
      cases hh : parseSingleIntField (some hf) 0 23 with
      | error e => exact ⟨e, rfl⟩
      | ok hv => exact ⟨_, if_pos h⟩
  · intro h
    unfold parseCronParts
    cases hm : parseSingleIntField (some mf) 0 59 with
    | error e => exact ⟨e, rfl⟩
    | ok m =>
      cases hh : parseSingleIntField (some hf) 0 23 with
      | error e => exact ⟨e, rfl⟩
      | ok hv =>
        by_cases hd : (domf = "*" ∨ domf = "?")
        · exact ⟨_, (if_neg (not_not_intro hd)).trans (if_pos h)⟩
        · exact ⟨_, if_pos hd⟩
  · intro h
    unfold parseCronParts
    cases hm : parseSingleIntField (some mf) 0 59 with
    | error e => exact ⟨e, rfl⟩
    | ok m =>
      cases hh : parseSingleIntField (some hf) 0 23 with
      | error e => exact ⟨e, rfl⟩
      | ok hv =>
        by_cases hd : (domf = "*" ∨ domf = "?")
        · by_cases hmo : monf = "*"
          · exact ⟨_, (if_neg (not_not_intro hd)).trans
              ((if_neg (not_not_intro hmo)).trans (if_pos h))⟩
          · exact ⟨_, (if_neg (not_not_intro hd)).trans (if_pos hmo)⟩
        · exact ⟨_, if_pos hd⟩

/-- Witness for the amended C6 at the concrete day-of-month 15. -/
theorem C6_amended_witness :
    ∃ e, parseCronParts "0" "18" "15" "*" "*" "*" = .error e :=
  (C6_amended_wildcard_only_calendar_fields "0" "18" "15" "*" "*" "*").1 (by decide)

/-- When the variant loop succeeds, the price is stored in the cache
under exactly the key the loop was given, and it came from one of the
tried variants. -/
theorem priceLoop_ok_caches (catalog : List PFilter → Option Rat)
    (cache : PriceCache) (key : String × String × String × String) :
    ∀ variants p cache2,
      priceLoop catalog cache key variants = (.ok p, cache2) →
      cache2 = (key, p) :: cache ∧ ∃ v ∈ variants, catalog v = some p := by
  intro variants
  induction variants with
  | nil =>
    intro p c2 h
    simp [priceLoop] at h
  | cons v rest ih =>
    intro p c2 h
    cases hc : catalog v with
    | some price =>
      rw [priceLoop, hc] at h
      have h1 : Except.ok price = (Except.ok p : Res Rat) := congrArg Prod.fst h
      have h2 : ((key, price) :: cache : PriceCache) = c2 := congrArg Prod.snd h
      have hp : price = p := by cases h1; rfl
      subst hp
      exact ⟨h2.symm, v, by simp, hc⟩
    | none =>
      rw [priceLoop, hc] at h
      obtain ⟨hcc, w, hw, hcat⟩ := ih p c2 h
      exact ⟨hcc, w, by simp [hw], hcat⟩

/-- On a cache miss with a known region and location, get_hourly_rate is
the variant loop over the deduplicated fallback variants, keyed by the
requested profile. -/
theorem getHourlyRate_miss_eq (catalog : List PFilter → Option Rat)
    (regionName location : String) (cache : PriceCache)
    (instanceType : String) (pf : PricingProfile)
    (hmiss : cacheLookup cache (buildPricingCacheKey instanceType pf) = none)
    (hreg : ¬ (regionName = "unknown" ∨ location = "Unknown")) :
    getHourlyRate catalog regionName location cache instanceType pf =
      priceLoop catalog cache (buildPricingCacheKey instanceType pf)
        (dedupVariants (filterVariants (buildBaseFilters instanceType location pf) pf) []) := by
  unfold getHourlyRate
  simp only [hmiss]
  exact if_neg hreg

/-- C1: whenever get_hourly_rate succeeds through the fallback variant
loop (cache miss, known region and location), the returned rate came
from one of the tried filter variants and is stored in the shared cache
under the key built from the originally requested profile; in
particular, for the profile Windows/NA/License Included against a
catalog matching only the license-relaxed variant, the relaxed-match
price is returned and cached under the original License-Included key. -/
theorem C1_price_cached_under_requested_profile_key
    (catalog : List PFilter → Option Rat) (regionName location : String)
    (cache : PriceCache) (instanceType : String) (pf : PricingProfile)
    (hmiss : cacheLookup cache (buildPricingCacheKey instanceType pf) = none)
    (hregion : regionName ≠ "unknown") (hlocation : location ≠ "Unknown") :
    (∀ p cache2,
      getHourlyRate catalog regionName location cache instanceType pf = (.ok p, cache2) →
      cache2 = (buildPricingCacheKey instanceType pf, p) :: cache ∧
      cacheLookup cache2 (buildPricingCacheKey instanceType pf) = some p ∧
      ∃ v ∈ dedupVariants (filterVariants (buildBaseFilters instanceType location pf) pf) [],
        catalog v = some p) ∧
    ((fun fs => if fs.contains (PFilter.mk "licenseModel" "No License required")
        then some ((123 : Rat) / 1000) else none)
      (buildBaseFilters "m5.large" "US East (N. Virginia)"
        (PricingProfile.mk "Windows" "NA" "License Included")) = none) ∧
    (getHourlyRate
      (fun fs => if fs.contains (PFilter.mk "licenseModel" "No License required")
        then some ((123 : Rat) / 1000) else none)
      "us-east-1" "US East (N. Virginia)" [] "m5.large"
      (PricingProfile.mk "Windows" "NA" "License Included") =
      (.ok ((123 : Rat) / 1000),
       [(("m5.large", "Windows", "NA", "License Included"), (123 : Rat) / 1000)])) := by
  refine ⟨?_, rfl, rfl⟩
  intro p cache2 h
  rw [getHourlyRate_miss_eq catalog regionName location cache instanceType pf hmiss
    (by simp [hregion, hlocation])] at h
  obtain ⟨hcc, w, hw, hcat⟩ := priceLoop_ok_caches catalog cache _ _ p cache2 h
  refine ⟨hcc, ?_, w, hw, hcat⟩
  rw [hcc]
  simp [cacheLookup]

/-- Witness for C1: the Windows/NA/License-Included example on the
empty cache ends with the relaxed-match price stored under the original
License-Included key. -/
theorem C1_witness :
    [(("m5.large", "Windows", "NA", "License Included"), (123 : Rat) / 1000)] =
      (buildPricingCacheKey "m5.large"
        (PricingProfile.mk "Windows" "NA" "License Included"),
       (123 : Rat) / 1000) :: [] :=
  ((C1_price_cached_under_requested_profile_key
    (fun fs => if fs.contains (PFilter.mk "licenseModel" "No License required")
      then some ((123 : Rat) / 1000) else none)
    "us-east-1" "US East (N. Virginia)" [] "m5.large"
    (PricingProfile.mk "Windows" "NA" "License Included")
    rfl (by decide) (by decide)).1
    ((123 : Rat) / 1000)
    [(("m5.large", "Windows", "NA", "License Included"), (123 : Rat) / 1000)] rfl).1

/-- The shared stop/modify/start sequence issues no tag writes. -/
theorem createTag_not_mem_stopModifyStart (i k v instId st dt : String) :
    Effect.createTag i k v ∉ stopModifyStartEffects instId st dt := by
  by_cases h : st ≠ "stopped" <;> simp [stopModifyStartEffects, h]

/-- C2: on the scale-down path, a present non-empty PreferredInstanceType
tag is never written again (its stored value is preserved), and a call on
an instance already at the resolved downsize type is a terminal no-op:
not processed, no savings record, and no provider calls at all, so a
second scale-down of an already-downsized instance changes nothing. -/
theorem C2_scale_down_idempotent
    (parseIso : String → Option Int) (parseFl : String → Option Rat)
    (fmtRate : Rat → String) (fmtUtc : Int → String)
    (savingsOutcome : SavingsOutcome) (now : Int) (data : InstanceData)
    (runStartTimestamp : String) (downsizeType : Option String)
    (defaultDownsizeType : String) :
    (∀ v, tagsGet data.tags preferredTypeTag = some v →
      String.mk (trimL v.data) ≠ "" →
      ∀ value, Effect.createTag data.instanceId preferredTypeTag value ∉
        (processInstance parseIso parseFl fmtRate fmtUtc savingsOutcome now data
          "scaledown" runStartTimestamp downsizeType defaultDownsizeType).effects) ∧
    (data.currentType = resolveDownsizeType downsizeType defaultDownsizeType →
      processInstance parseIso parseFl fmtRate fmtUtc savingsOutcome now data
          "scaledown" runStartTimestamp downsizeType defaultDownsizeType =
        ProcResult.mk false none none []) := by
  constructor
  · intro v hv hne value
    by_cases hc : data.currentType = resolveDownsizeType downsizeType defaultDownsizeType
    · simp [processInstance, hc]
    · have hv2 : tagsGet data.tags "PreferredInstanceType" = some v := hv
      cases savingsOutcome with
      | calcFails =>
        simp [processInstance, hc, hv2, preferredTypeTag,
          createTag_not_mem_stopModifyStart]
        intro hEmpty
        exact absurd hEmpty hne
      | calcOk profile profileSource hourlySavings tagWriteSucceeds =>
        cases tagWriteSucceeds <;>
        · simp [processInstance, hc, hv2, preferredTypeTag,
            lastScaleDownTimestampTag, lastScaleDownHourlyTag,
            createTag_not_mem_stopModifyStart]
          intro hEmpty
          exact absurd hEmpty hne
  · intro h
    simp [processInstance, h]

/-- Witness for C2: an instance tagged with a non-empty preferred type
never sees that tag rewritten during scale-down. -/
theorem C2_witness :
    Effect.createTag "i-1" preferredTypeTag "x" ∉
      (processInstance (fun _ => none) (fun _ => none) (fun _ => "") (fun _ => "")
        SavingsOutcome.calcFails 0
        (InstanceData.mk "i-1" "m5.large" "running" [(preferredTypeTag, "m5.xlarge")])
        "scaledown" "ts" (some "t3.medium") "t3.medium").effects :=
  (C2_scale_down_idempotent (fun _ => none) (fun _ => none) (fun _ => "") (fun _ => "")
    SavingsOutcome.calcFails 0
    (InstanceData.mk "i-1" "m5.large" "running" [(preferredTypeTag, "m5.xlarge")])
    "ts" (some "t3.medium") "t3.medium").1 "m5.xlarge" rfl (by decide) "x"

/-- The double-counting guard: when both timestamp tags parse and the
last scale-up instant is at or after the scale-down instant, no snapshot
is produced. -/
theorem buildActualSavingsSnapshot_none_of_up_ge_down
    (parseIso : String → Option Int) (parseFl : String → Option Rat)
    (instanceId : String) (tags : Tags) (desiredType currentType : String)
    (now : Int) (dT uT : Int)
    (hdT : parseTimestampModel parseIso (tagsGet tags lastScaleDownTimestampTag) = some dT)
    (huT : parseTimestampModel parseIso (tagsGet tags lastScaleUpTimestampTag) = some uT)
    (hle : dT ≤ uT) :
    buildActualSavingsSnapshot parseIso parseFl instanceId tags desiredType
      currentType now = none := by
  simp [buildActualSavingsSnapshot, hdT, huT, hle]

/-- C5: the snapshot computation yields nothing when the scale-down
timestamp tag or the hourly-savings tag is missing or empty, when the
scale-down timestamp does not parse, when a recorded scale-up timestamp
parses to an instant at or after the scale-down instant, or when the
hourly value does not parse as a float; consequently a scale-up run over
an instance whose last-scale-up tag is already at or past its
last-scale-down tag produces no actual-savings record and writes no
scale-up timestamp tag. -/
theorem C5_actual_savings_soft_failure_guards
    (parseIso : String → Option Int) (parseFl : String → Option Rat)
    (instanceId : String) (tags : Tags) (desiredType currentType : String)
    (now : Int) :
    ((strFalsy (tagsGet tags lastScaleDownTimestampTag) = true ∨
      strFalsy (tagsGet tags lastScaleDownHourlyTag) = true) →
      buildActualSavingsSnapshot parseIso parseFl instanceId tags desiredType
        currentType now = none) ∧
    (parseTimestampModel parseIso (tagsGet tags lastScaleDownTimestampTag) = none →
      buildActualSavingsSnapshot parseIso parseFl instanceId tags desiredType
        currentType now = none) ∧
    (∀ dT uT,
      parseTimestampModel parseIso (tagsGet tags lastScaleDownTimestampTag) = some dT →
      parseTimestampModel parseIso (tagsGet tags lastScaleUpTimestampTag) = some uT →
      dT ≤ uT →
      buildActualSavingsSnapshot parseIso parseFl instanceId tags desiredType
        currentType now = none) ∧
    (∀ s, tagsGet tags lastScaleDownHourlyTag = some s → parseFl s = none →
      buildActualSavingsSnapshot parseIso parseFl instanceId tags desiredType
        currentType now = none) ∧
    (∀ (fmtRate : Rat → String) (fmtUtc : Int → String)
        (savingsOutcome : SavingsOutcome) (runTs : String)
        (downsizeType : Option String) (defaultDownsizeType : String)
        (dT uT : Int) (data : InstanceData), data.tags = tags →
      parseTimestampModel parseIso (tagsGet tags lastScaleDownTimestampTag) = some dT →
      parseTimestampModel parseIso (tagsGet tags lastScaleUpTimestampTag) = some uT →
      dT ≤ uT →
      (processInstance parseIso parseFl fmtRate fmtUtc savingsOutcome now data
        "scaleup" runTs downsizeType defaultDownsizeType).actual = none ∧
      ∀ value, Effect.createTag data.instanceId lastScaleUpTimestampTag value ∉
        (processInstance parseIso parseFl fmtRate fmtUtc savingsOutcome now data
          "scaleup" runTs downsizeType defaultDownsizeType).effects) := by
  refine ⟨?_, ?_, ?_, ?_, ?_⟩
  · intro h
    exact if_pos h
  · intro hpt
    simp [buildActualSavingsSnapshot, hpt]
  · intro dT uT hdT huT hle
    exact buildActualSavingsSnapshot_none_of_up_ge_down parseIso parseFl instanceId
      tags desiredType currentType now dT uT hdT huT hle
  · intro s hs hfl
    cases hpd : parseTimestampModel parseIso (tagsGet tags lastScaleDownTimestampTag) with
    | none => simp [buildActualSavingsSnapshot, hpd]
    | some dT =>
      cases hpu : parseTimestampModel parseIso (tagsGet tags lastScaleUpTimestampTag) with
      | none => simp [buildActualSavingsSnapshot, hpd, hpu, hs, hfl]
      | some uT => simp [buildActualSavingsSnapshot, hpd, hpu, hs, hfl]
  · intro fmtRate fmtUtc savingsOutcome runTs downsizeType defaultDownsizeType
      dT uT data hdata hdT huT hle
    rw [← hdata] at hdT huT
    by_cases h1 : String.mk (trimL ((tagsGet data.tags preferredTypeTag).getD "").data) = ""
    · exact ⟨by simp [processInstance, h1], fun value => by simp [processInstance, h1]⟩
    · by_cases h2 : data.currentType =
          String.mk (trimL ((tagsGet data.tags preferredTypeTag).getD "").data)
      · exact ⟨by simp [processInstance, h1, h2],
          fun value => by simp [processInstance, h1, h2]⟩
      · have hsnap := buildActualSavingsSnapshot_none_of_up_ge_down parseIso parseFl
          data.instanceId data.tags
          (String.mk (trimL ((tagsGet data.tags preferredTypeTag).getD "").data))
          data.currentType now dT uT hdT huT hle
        exact ⟨by simp [processInstance, h1, h2, hsnap],
          fun value => by
            simp [processInstance, h1, h2, hsnap, createTag_not_mem_stopModifyStart]⟩

/-- Witness for C5 at an instance with no scale-down metadata tags. -/
theorem C5_witness :
    buildActualSavingsSnapshot (fun _ => none) (fun _ => none) "i-1" []
      "m5.large" "t3.medium" 0 = none :=
  (C5_actual_savings_soft_failure_guards (fun _ => none) (fun _ => none) "i-1" []
    "m5.large" "t3.medium" 0).1 (Or.inl rfl)

/-- Without fail-fast, collecting a batch never fails and is the fold of
the collection step over its outcomes. -/
theorem runBatch_false_eq (outs : List TaskOutcome) :
    ∀ acc, runBatch false acc outs = .ok (outs.foldl collectOutcome acc) := by
  induction outs with
  | nil => intro acc; rfl
  | cons o rest ih =>
    intro acc
    cases o with
    | ok p s a => simpa [runBatch] using ih (collectOutcome acc (.ok p s a))
    | err => simpa [runBatch, collectOutcome] using ih acc

/-- Without fail-fast, the batch loop never fails and accumulates over
the concatenation of all batches. -/
theorem runBatches_false_eq (batches : List (List TaskOutcome)) :
    ∀ acc, runBatches false acc batches = .ok ((batches.flatten).foldl collectOutcome acc) := by
  induction batches with
  | nil => intro acc; rfl
  | cons b rest ih =>
    intro acc
    simp [runBatches, runBatch_false_eq b acc, ih, List.foldl_append]

/-- With fail-fast, a batch containing a failure fails. -/
theorem runBatch_true_err (outs : List TaskOutcome) (hb : .err ∈ outs) :
    ∀ acc, runBatch true acc outs = .error () := by
  induction outs with
  | nil => cases hb
  | cons o rest ih =>
    intro acc
    cases o with
    | err => rfl
    | ok p s a =>
      have hr : TaskOutcome.err ∈ rest := by
        cases hb with
        | tail _ h => exact h
      exact ih hr (collectOutcome acc (.ok p s a))

/-- With fail-fast, once some batch contains a failure the whole loop
fails, and the batches after the failing one are irrelevant: they are
never started. -/
theorem runBatches_true_err (batch : List TaskOutcome) (hb : .err ∈ batch) :
    ∀ pre rest acc,
      runBatches true acc (pre ++ batch :: rest) = .error () ∧
      runBatches true acc (pre ++ batch :: rest) =
        runBatches true acc (pre ++ [batch]) := by
  intro pre
  induction pre with
  | nil =>
    intro rest acc
    constructor <;> simp [runBatches, runBatch_true_err batch hb acc]
  | cons b pre ih =>
    intro rest acc
    simp only [List.cons_append, runBatches]
    cases hr : runBatch true acc b with
    | error e => exact ⟨rfl, rfl⟩
    | ok acc2 => exact ih rest acc2

/-- Every outcome in a list of processed successes bumps the processed
count. -/
theorem collect_all_processed (outs : List TaskOutcome) :
    ∀ acc, (∀ o ∈ outs, ∃ s a, o = .ok true s a) →
      (outs.foldl collectOutcome acc).processedCount =
        acc.processedCount + outs.length := by
  induction outs with
  | nil => intro acc _; rfl
  | cons o rest ih =>
    intro acc hall
    obtain ⟨s, a, ho⟩ := hall o (by simp)
    subst ho
    rw [List.foldl_cons, ih _ (fun o ho => hall o (by simp [ho]))]
    simp [collectOutcome]
    omega

/-- C4: with fail-fast disabled the run always completes, a failed task
is simply skipped by the collection fold so the remaining outcomes of
its batch are still counted, and the run summary is recorded; with
fail-fast enabled, a failure in any batch makes the whole invocation
fail with no summary recorded, and no batch after the failing one is
started. -/
theorem C4_fail_fast_partial_failure_policy (batches : List (List TaskOutcome)) :
    (lambdaHandlerBatchPhase false batches =
      .ok ((batches.flatten).foldl collectOutcome (BatchAcc.mk 0 [] []), true)) ∧
    (∀ (acc : BatchAcc) (pre post : List TaskOutcome),
      (pre ++ .err :: post).foldl collectOutcome acc =
        (pre ++ post).foldl collectOutcome acc) ∧
    (∀ pre post : List TaskOutcome,
      (∀ o ∈ pre ++ post, ∃ s a, o = .ok true s a) →
      ∃ acc, lambdaHandlerBatchPhase false [pre ++ .err :: post] = .ok (acc, true) ∧
        acc.processedCount = pre.length + post.length) ∧
    (∀ pre batch rest, .err ∈ batch →
      lambdaHandlerBatchPhase true (pre ++ batch :: rest) = .error () ∧
      lambdaHandlerBatchPhase true (pre ++ batch :: rest) =
        lambdaHandlerBatchPhase true (pre ++ [batch])) := by
  refine ⟨?_, ?_, ?_, ?_⟩
  · simp [lambdaHandlerBatchPhase, runBatches_false_eq]
  · intro acc pre post
    simp [List.foldl_append, collectOutcome]
  · intro pre post hall
    refine ⟨(pre ++ TaskOutcome.err :: post).foldl collectOutcome (BatchAcc.mk 0 [] []),
      ?_, ?_⟩
    · simp [lambdaHandlerBatchPhase, runBatches_false_eq]
    · rw [show (pre ++ TaskOutcome.err :: post).foldl collectOutcome (BatchAcc.mk 0 [] []) =
          (pre ++ post).foldl collectOutcome (BatchAcc.mk 0 [] []) by
        simp [List.foldl_append, collectOutcome]]
      rw [collect_all_processed (pre ++ post) (BatchAcc.mk 0 [] []) hall]
      simp
  · intro pre batch rest hb
    obtain ⟨h1, h2⟩ := runBatches_true_err batch hb pre rest (BatchAcc.mk 0 [] [])
    constructor
    · simp [lambdaHandlerBatchPhase, h1]
    · simp [lambdaHandlerBatchPhase, h2]

/-- Witness for C4: a single failing task under fail-fast aborts the
invocation with no summary. -/
theorem C4_witness :
    lambdaHandlerBatchPhase true [[TaskOutcome.err]] = .error () :=
  ((C4_fail_fast_partial_failure_policy [[TaskOutcome.err]]).2.2.2 [] [TaskOutcome.err]
    [] (by simp)).1

/-- C10: an event with no source field is handled exactly as one with
source manual: the default makes the two runs identical, the run never
proceeds past validation, and with a valid action the manual-blocked
error is raised before the instance enumeration (the first provider
interaction) is reached. -/
theorem C10_missing_source_rejected_as_manual
    (action : Option String) (failFast : Bool) (batches : List (List TaskOutcome)) :
    (handlerEntry action none = handlerEntry action (some "manual")) ∧
    (lambdaHandlerModel action none failFast batches =
      lambdaHandlerModel action (some "manual") failFast batches) ∧
    (handlerEntry action none ≠ .proceeds) ∧
    ((action = some "scaleup" ∨ action = some "scaledown") →
      handlerEntry action none = .manualBlocked ∧
      (lambdaHandlerModel action none failFast batches).result =
        .error "Manual execution is blocked. Use EventBridge scheduled rules." ∧
      (lambdaHandlerModel action none failFast batches).enumeratedInstances = false) := by
  refine ⟨rfl, rfl, ?_, ?_⟩
  · cases action with
    | none => simp [handlerEntry]
    | some a =>
      simp [handlerEntry]
      split_ifs <;> simp
  · rintro (h | h) <;> subst h <;> exact ⟨rfl, rfl, rfl⟩

/-- Witness for C10 at the scale-up action. -/
theorem C10_witness :
    handlerEntry (some "scaleup") none = .manualBlocked :=
  ((C10_missing_source_rejected_as_manual (some "scaleup") false []).2.2.2
    (Or.inl rfl)).1

/-- getManualDiscountFactor on a parsed percentage, as an if form. -/
theorem getManualDiscountFactor_some_eq (pct : Rat) :
    getManualDiscountFactor (some pct) =
      if pct < 0 ∨ pct > 100 then
        .error "SAVINGS_PLAN_DISCOUNT_PERCENT must be between 0 and 100"
      else .ok (1 - pct / 100) := rfl

/-- getCoverageDiscountFactor on a parsed lookback, as an if form. -/
theorem getCoverageDiscountFactor_some_eq (d : Int)
    (cov : List (Option Rat × Option Rat)) :
    getCoverageDiscountFactor (some d) cov =
      if d < 1 ∨ d > 90 then
        .error "SAVINGS_PLAN_COVERAGE_LOOKBACK_DAYS must be between 1 and 90"
      else if (cov.map (fun c => parseFloatD c.2)).sum +
          (cov.map (fun c => parseFloatD c.1)).sum ≤ 0 then
        .error "Savings Plan coverage data is empty for the selected window"
      else
        .ok (1 - (max (min ((cov.map (fun c => parseFloatD c.1)).sum /
          ((cov.map (fun c => parseFloatD c.2)).sum +
            (cov.map (fun c => parseFloatD c.1)).sum)) (9999 / 10000)) 0) * 100 / 100) :=
  rfl

/-- A manual-mode factor is always between 0 and 1 inclusive. -/
theorem getManualDiscountFactor_ok_bounds (mp : Option Rat) (f : Rat)
    (h : getManualDiscountFactor mp = .ok f) : 0 ≤ f ∧ f ≤ 1 := by
  cases mp with
  | none => exact absurd h (by simp [getManualDiscountFactor])
  | some pct =>
    rw [getManualDiscountFactor_some_eq] at h
    by_cases hr : (pct < 0 ∨ pct > 100)
    · rw [if_pos hr] at h
      cases h
    · rw [if_neg hr] at h
      have hf : 1 - pct / 100 = f := Except.ok.inj h
      push_neg at hr
      obtain ⟨h0, h100⟩ := hr
      subst hf
      have hb1 : pct / 100 ≤ 1 := by
        rw [div_le_one (by norm_num : (0 : Rat) < 100)]
        exact h100
      have hb0 : 0 ≤ pct / 100 := div_nonneg h0 (by norm_num)
      constructor <;> linarith

/-- A coverage-mode factor is always between 1/10000 and 1 inclusive. -/
theorem getCoverageDiscountFactor_ok_bounds (lb : Option Int)
    (cov : List (Option Rat × Option Rat)) (f : Rat)
    (h : getCoverageDiscountFactor lb cov = .ok f) : 1 / 10000 ≤ f ∧ f ≤ 1 := by
  cases lb with
  | none => exact absurd h (by simp [getCoverageDiscountFactor])
  | some d =>
    rw [getCoverageDiscountFactor_some_eq] at h
    by_cases h1 : (d < 1 ∨ d > 90)
    · rw [if_pos h1] at h
      cases h
    · rw [if_neg h1] at h
      by_cases h2 : (cov.map (fun c => parseFloatD c.2)).sum +
          (cov.map (fun c => parseFloatD c.1)).sum ≤ 0
      · rw [if_pos h2] at h
        cases h
      · rw [if_neg h2] at h
        have hf := Except.ok.inj h
        generalize hm : max (min ((cov.map (fun c => parseFloatD c.1)).sum /
          ((cov.map (fun c => parseFloatD c.2)).sum + (cov.map (fun c => parseFloatD c.1)).sum))
          (9999 / 10000)) 0 = m at hf
        have hm0 : (0 : Rat) ≤ m := by rw [← hm]; exact le_max_right _ _
        have hm1 : m ≤ 9999 / 10000 := by
          rw [← hm]
          exact max_le (min_le_right _ _) (by norm_num)
        have hmul : m * 100 / 100 = m := by
          rw [mul_div_assoc]
          norm_num
        rw [hmul] at hf
        subst hf
        constructor <;> linarith

/-- C7 counterexample: the manual percentage 100 is accepted by the
estimator and yields factor 0, which is not strictly greater than 0. -/
theorem C7_counterexample_full_manual_discount :
    getSavingsPlanFactor "Manual" none [] (some 100) = .ok (0, "manual") ∧
    ¬ ((0 : Rat) > 0) := by
  constructor
  · have h1 : getManualDiscountFactor (some 100) = .ok 0 := by
      rw [getManualDiscountFactor_some_eq, if_neg (by norm_num)]
      norm_num
    unfold getSavingsPlanFactor
    rw [if_neg (by decide), h1]
  · norm_num

/-- C7 (amended): every factor the estimator returns lies in the closed
interval from 0 to 1 (0 is attained exactly by the accepted manual
percentage 100, and coverage-mode factors are at least 1/10000); a
manual percentage outside 0..100 fails, and an accepted percentage pct
yields 1 - pct/100. -/
theorem C7_amended_factor_in_closed_unit_interval
    (mode : String) (lookbackParsed : Option Int)
    (coverages : List (Option Rat × Option Rat)) (manualParsedPercent : Option Rat) :
    (∀ f src,
      getSavingsPlanFactor mode lookbackParsed coverages manualParsedPercent =
        .ok (f, src) → 0 ≤ f ∧ f ≤ 1) ∧
    (∀ pct : Rat, (pct < 0 ∨ pct > 100) →
      getManualDiscountFactor (some pct) =
        .error "SAVINGS_PLAN_DISCOUNT_PERCENT must be between 0 and 100") ∧
    (∀ pct : Rat, 0 ≤ pct → pct ≤ 100 →
      getManualDiscountFactor (some pct) = .ok (1 - pct / 100)) := by
  refine ⟨?_, ?_, ?_⟩
  · intro f src h
    unfold getSavingsPlanFactor at h
    split_ifs at h with hm
    · cases hcov : getCoverageDiscountFactor lookbackParsed coverages with
      | ok fc =>
        simp only [hcov] at h
        obtain ⟨hf, _⟩ := Prod.mk.injEq .. ▸ Except.ok.inj h
        subst hf
        have := getCoverageDiscountFactor_ok_bounds lookbackParsed coverages fc hcov
        constructor <;> linarith [this.1, this.2]
      | error ec =>
        simp only [hcov] at h
        cases hman : getManualDiscountFactor manualParsedPercent with
        | ok fm =>
          simp only [hman] at h
          obtain ⟨hf, _⟩ := Prod.mk.injEq .. ▸ Except.ok.inj h
          subst hf
          exact getManualDiscountFactor_ok_bounds manualParsedPercent fm hman
        | error em =>
          rw [hman] at h
          cases h
    · cases hman : getManualDiscountFactor manualParsedPercent with
      | ok fm =>
        simp only [hman] at h
        obtain ⟨hf, _⟩ := Prod.mk.injEq .. ▸ Except.ok.inj h
        subst hf
        exact getManualDiscountFactor_ok_bounds manualParsedPercent fm hman
      | error em =>
        rw [hman] at h
        cases h
  · intro pct hout
    rw [getManualDiscountFactor_some_eq, if_pos hout]
  · intro pct h0 h100
    rw [getManualDiscountFactor_some_eq,
      if_neg (by push_neg; exact ⟨h0, h100⟩)]

/-- Witness for the amended C7 at the manual percentage 50. -/
theorem C7_witness :
    getManualDiscountFactor (some 50) = .ok (1 - 50 / 100) :=
  (C7_amended_factor_in_closed_unit_interval "Manual" none [] (some 50)).2.2 50
    (by decide) (by decide)

/-- The attempt loop never calls the oracle more often than its fuel
allows. -/
theorem retryGo_calls_le (oracle : Nat → Except ε α) (backoff : Rat) :
    ∀ fuel lastErr attempt, (retryGo oracle backoff lastErr attempt fuel).calls ≤ fuel := by
  intro fuel
  induction fuel with
  | zero => intro lastErr attempt; simp [retryGo]
  | succ n ih =>
    intro lastErr attempt
    cases ho : oracle attempt with
    | ok a => simp [retryGo, ho]
    | error e =>
      have := ih (some e) (attempt + 1)
      simp only [retryGo, ho]
      omega

/-- One failed attempt prepends its sleep and defers to the rest of the
loop with the captured error. -/
theorem retryGo_error_step (oracle : Nat → Except ε α) (backoff : Rat)
    (lastErr : Option ε) (attempt fuel : Nat) (e0 : ε)
    (h : oracle attempt = .error e0) :
    retryGo oracle backoff lastErr attempt (fuel + 1) =
      RetryTrace.mk (retryGo oracle backoff (some e0) (attempt + 1) fuel).result
        (backoff * (attempt : Rat) ::
          (retryGo oracle backoff (some e0) (attempt + 1) fuel).sleeps)
        ((retryGo oracle backoff (some e0) (attempt + 1) fuel).calls + 1) := by
  rw [retryGo, h]

/-- When every attempt in the window fails, the loop performs one sleep
after every failed attempt, the final one included, and ends by
re-raising the last error. -/
theorem retryGo_all_fail (oracle : Nat → Except ε α) (backoff : Rat) (e : Nat → ε) :
    ∀ fuel attempt lastErr,
      (∀ i, attempt ≤ i → i < attempt + (fuel + 1) → oracle i = .error (e i)) →
      retryGo oracle backoff lastErr attempt (fuel + 1) =
        RetryTrace.mk (.raised (e (attempt + fuel)))
          ((List.range (fuel + 1)).map (fun j => backoff * ((attempt + j : Nat) : Rat)))
          (fuel + 1) := by
  intro fuel
  induction fuel with
  | zero =>
    intro attempt lastErr hfail
    have h0 : oracle attempt = .error (e attempt) := hfail attempt (le_refl _) (by omega)
    simp [retryGo, h0, List.range_succ]
  | succ m ih =>
    intro attempt lastErr hfail
    have h0 : oracle attempt = .error (e attempt) := hfail attempt (le_refl _) (by omega)
    have hrest := ih (attempt + 1) (some (e attempt))
      (fun i hi1 hi2 => hfail i (by omega) (by omega))
    rw [retryGo_error_step oracle backoff lastErr attempt (m + 1) (e attempt) h0, hrest]
    congr 1
    · rw [show attempt + 1 + m = attempt + (m + 1) by omega]
    · conv_rhs => rw [show m + 1 + 1 = (m + 1) + 1 from rfl, List.range_succ_eq_map,
        List.map_cons, List.map_map]
      have harg : ∀ j : Nat, attempt + 1 + j = attempt + (j + 1) := by omega
      simp [Function.comp, harg]

/-- When the first success happens at attempt k within the window, the
loop returns it at once after exactly one sleep per preceding failed
attempt. -/
theorem retryGo_first_success (oracle : Nat → Except ε α) (backoff : Rat)
    (e : Nat → ε) (a : α) :
    ∀ fuel attempt lastErr k, attempt ≤ k → k < attempt + fuel →
      (∀ i, attempt ≤ i → i < k → oracle i = .error (e i)) →
      oracle k = .ok a →
      retryGo oracle backoff lastErr attempt fuel =
        RetryTrace.mk (.ok a)
          ((List.range (k - attempt)).map (fun j => backoff * ((attempt + j : Nat) : Rat)))
          (k - attempt + 1) := by
  intro fuel
  induction fuel with
  | zero =>
    intro attempt lastErr k h1 h2
    omega
  | succ n ih =>
    intro attempt lastErr k h1 h2 hfail hok
    by_cases hak : attempt = k
    · subst hak
      simp [retryGo, hok]
    · have h0 : oracle attempt = .error (e attempt) := hfail attempt (le_refl _) (by omega)
      have hrest := ih (attempt + 1) (some (e attempt)) k (by omega) (by omega)
        (fun i hi1 hi2 => hfail i (by omega) hi2) hok
      rw [retryGo_error_step oracle backoff lastErr attempt n (e attempt) h0, hrest]
      congr 1
      · have hk : k - attempt = (k - (attempt + 1)) + 1 := by omega
        conv_rhs => rw [hk, List.range_succ_eq_map, List.map_cons, List.map_map]
        have harg : ∀ j : Nat, attempt + 1 + j = attempt + (j + 1) := by omega
        simp [Function.comp, harg]
      · show k - (attempt + 1) + 1 + 1 = k - attempt + 1
        omega

/-- C8 counterexample: with two attempts both failing, the wrapper
performs two sleeps, one after each failed attempt including the final
one before re-raising, so sleeps do not happen only between consecutive
attempts (two calls would then allow at most one sleep). -/
theorem C8_counterexample_sleep_after_final_attempt :
    (retryModel (fun _ => (Except.error "boom" : Except String Unit)) 2 5).calls = 2 ∧
    (retryModel (fun _ => (Except.error "boom" : Except String Unit)) 2 5).sleeps =
      [5 * ((1 : Nat) : Rat), 5 * ((2 : Nat) : Rat)] ∧
    (retryModel (fun _ => (Except.error "boom" : Except String Unit)) 2 5).sleeps.length ≠
      (retryModel (fun _ => (Except.error "boom" : Except String Unit)) 2 5).calls - 1 := by
  refine ⟨rfl, rfl, ?_⟩
  decide

/-- C8 (amended): the wrapper calls the wrapped function at most the
configured attempt count times and returns the first success at once
with no further sleep; each failed attempt i, the last one before the
re-raise included, is followed by a sleep of backoff times i; after all
attempts fail the last captured error is re-raised. -/
theorem C8_amended_retry_contract (oracle : Nat → Except ε α) (maxRetries : Nat)
    (backoff : Rat) (e : Nat → ε) (a : α) :
    ((retryModel oracle maxRetries backoff).calls ≤ maxRetries) ∧
    (∀ k, 1 ≤ k → k ≤ maxRetries →
      (∀ i, 1 ≤ i → i < k → oracle i = .error (e i)) → oracle k = .ok a →
      retryModel oracle maxRetries backoff =
        RetryTrace.mk (.ok a)
          ((List.range (k - 1)).map (fun j => backoff * ((1 + j : Nat) : Rat)))
          k) ∧
    (1 ≤ maxRetries →
      (∀ i, 1 ≤ i → i ≤ maxRetries → oracle i = .error (e i)) →
      retryModel oracle maxRetries backoff =
        RetryTrace.mk (.raised (e maxRetries))
          ((List.range maxRetries).map (fun j => backoff * ((1 + j : Nat) : Rat)))
          maxRetries) := by
  refine ⟨retryGo_calls_le oracle backoff maxRetries none 1, ?_, ?_⟩
  · intro k hk1 hkm hfail hok
    have := retryGo_first_success oracle backoff e a maxRetries 1 none k hk1
      (by omega) (fun i hi1 hi2 => hfail i hi1 hi2) hok
    rw [retryModel, this]
    have hc : k - 1 + 1 = k := by omega
    rw [hc]
  · intro hmax hfail
    obtain ⟨m, rfl⟩ : ∃ m, maxRetries = m + 1 := ⟨maxRetries - 1, by omega⟩
    have := retryGo_all_fail oracle backoff e m 1 none
      (fun i hi1 hi2 => hfail i hi1 (by omega))
    rw [retryModel, this]
    have hc : 1 + m = m + 1 := by omega
    rw [hc]

/-- Witness for the amended C8: an oracle succeeding at the first
attempt yields one call and no sleeps. -/
theorem C8_witness :
    retryModel (fun _ => (Except.ok () : Except String Unit)) 3 5 =
      RetryTrace.mk (.ok ())
        ((List.range (1 - 1)).map (fun j => 5 * ((1 + j : Nat) : Rat))) 1 :=
  (C8_amended_retry_contract (fun _ => (Except.ok () : Except String Unit)) 3 5
    (fun _ => "") ()).2.1 1 (by decide) (by decide)
    (fun i hi1 hi2 => absurd (lt_of_le_of_lt hi1 hi2) (by decide)) rfl

end DynScaler
